import Mathlib

/-!
# Verification of the personalize-demo data-processing core

Shallow embedding of the repository's data-processing routines:

* the Reviewed-ID Extractor loop (notebook `Pre-processing of UCSD Data`,
  cell building `reviewed_item_ids` / `n_reviews`);
* the Unused-Item Filter `remove_unused_items` (imported from the local
  `preproc` module, whose body is not in the repository snapshot; modelled
  from the spec);
* the reservoir-sampling loops of notebook `2. Enabling Real-Time Feedback`
  (`sample_user` with k = 1, `interaction_items` with k = n_interactions);
* the event-tracker setup cell of the same notebook
  (`create_event_tracker` try/except with `ResourceAlreadyExistsException`
  recovery).

Records are JSON objects decoded from newline-delimited (optionally
gzip-compressed) streams; the stream/decompression layer is abstracted as a
list of already-split lines, each either a decoded JSON object or a decode
failure.
-/

namespace PersonalizeDemo

/-- A JSON value: the self-describing structured payload of one record
(string keys to heterogeneous values - strings, numbers, booleans, nested
lists/maps, null). -/
inductive JsonValue where
  | null : JsonValue
  | bool (b : Bool) : JsonValue
  | num (n : Int) : JsonValue
  | str (s : String) : JsonValue
  | arr (elems : List JsonValue) : JsonValue
  | obj (fields : List (String × JsonValue)) : JsonValue

/-- A decoded record: one JSON object, i.e. an association list of field
names to JSON values (a `dict` in the Python source). -/
abbrev Record := List (String × JsonValue)

/-- First-match field lookup on a decoded record (Python `record[key]`,
as an `Option` to model the possible `KeyError`). -/
def lookupField : Record → String → Option JsonValue
  | [], _ => none
  | (k, v) :: rest, key => if k = key then some v else lookupField rest key

/-- Extract the Identifier from a record: the value of the configured
field name (default `"asin"` in the source), which the data model takes to
be a string.  `none` when the field is absent or not a string. -/
def getId (field : String) (r : Record) : Option String :=
  match lookupField r field with
  | some (JsonValue.str s) => some s
  | _ => none

/-! ## Reviewed-ID Extractor

Embeds the source loop (pre-processing notebook):

```python
reviewed_item_ids = set()
n_reviews = 0
for review in json_gz_reader(...):
    n_reviews += 1
    reviewed_item_ids.add(review["asin"])
```

The gzip/line-splitting reader is abstracted as the already-decoded list of
records; `review["asin"]` raising on a missing field is modelled by the
`Option` result. -/

/-- One iteration of the extractor loop: bump the record count and insert
the record's Identifier into the accumulated set; fails when the Identifier
field is missing (Python `KeyError`). -/
def extractorStep (field : String) (st : Finset String × Nat) (r : Record) :
    Option (Finset String × Nat) :=
  match getId field r with
  | some rid => some (insert rid st.1, st.2 + 1)
  | none => none

/-- The Reviewed-ID Extractor: fold the extractor loop over the decoded
record stream, starting from the empty set and count 0. -/
def reviewed_item_ids (field : String) (reviews : List Record) :
    Option (Finset String × Nat) :=
  reviews.foldlM (extractorStep field) (∅, 0)

/-! ## Unused-Item Filter -/

/-- Errors the filter pass can surface: a line that fails to decode as
JSON, or a decoded record lacking the configured Identifier field (spec
§7; both carry the 1-based record index for context). -/
inductive FilterError where
  | MalformedRecord (line : Nat) : FilterError
  | MissingField (line : Nat) : FilterError
deriving DecidableEq

/-- A line of the input stream as delivered by the streaming JSON reader:
`some r` when the line decoded to the object `r`, `none` when decoding
failed. -/
abbrev StreamLine := Option Record

/-- Modelled from the spec: the body of `preproc.remove_unused_items` is
not in the repository snapshot (only its import and call site are), so the
Unused-Item Filter is modelled from spec §4.2.  Each record is kept when
its Identifier is a member of the Reviewed-ID Set, or otherwise by an
independent per-record Bernoulli trial with probability `p` (the record at
0-based stream position `n` compares its uniform-[0,1) draw `draws n`
against `p`); kept records are written in input order.  A line that fails
to decode aborts the pass with `MalformedRecord`; per spec §7's open
`MissingField` policy, this model also makes a missing Identifier field
fatal.  Returns the kept records written before the pass ended, together
with the error that aborted it (if any); `n` is the 0-based position of
the first line of the remaining stream. -/
def remove_unused_items (field : String) (reviewed : Finset String) (p : ℚ)
    (draws : Nat → ℚ) : List StreamLine → Nat → List Record × Option FilterError
  | [], _ => ([], none)
  | none :: _, n => ([], some (FilterError.MalformedRecord (n + 1)))
  | some r :: rest, n =>
    match getId field r with
    | none => ([], some (FilterError.MissingField (n + 1)))
    | some rid =>
      let keep : Bool := decide (rid ∈ reviewed) || decide (draws n < p)
      let out := remove_unused_items field reviewed p draws rest (n + 1)
      (if keep then r :: out.1 else out.1, out.2)

/-! ## Re-serialization (output framing)

The filter re-serializes kept records as newline-delimited JSON text (the
byte content underneath the output gzip framing, whose timestamp metadata
the spec excludes from comparison). -/

/-- Escape one character for a JSON string literal. -/
def escapeChar (c : Char) : String :=
  if c = '"' then "\\\""
  else if c = '\\' then "\\\\"
  else if c = '\n' then "\\n"
  else String.singleton c

/-- Serialize a string as a JSON string literal. -/
def encodeString (s : String) : String :=
  "\"" ++ String.join (s.toList.map escapeChar) ++ "\""

mutual

/-- Serialize a JSON value as compact JSON text. -/
def encodeJson : JsonValue → String
  | JsonValue.null => "null"
  | JsonValue.bool true => "true"
  | JsonValue.bool false => "false"
  | JsonValue.num n => toString n
  | JsonValue.str s => encodeString s
  | JsonValue.arr es => "[" ++ encodeElems es ++ "]"
  | JsonValue.obj fs => "\x7b" ++ encodeFields fs ++ "\x7d"

/-- Serialize the comma-separated elements of a JSON array. -/
def encodeElems : List JsonValue → String
  | [] => ""
  | [e] => encodeJson e
  | e :: e2 :: es => encodeJson e ++ "," ++ encodeElems (e2 :: es)

/-- Serialize the comma-separated key/value pairs of a JSON object. -/
def encodeFields : List (String × JsonValue) → String
  | [] => ""
  | [(k, v)] => encodeString k ++ ":" ++ encodeJson v
  | (k, v) :: f2 :: fs =>
    encodeString k ++ ":" ++ encodeJson v ++ "," ++ encodeFields (f2 :: fs)

end

/-- The output stream's text: each kept record re-encoded as one JSON
object on its own line. -/
def serializeOutput (recs : List Record) : String :=
  String.join (recs.map (fun r => encodeJson (JsonValue.obj r) ++ "\n"))

/-! ## Reservoir-sampling loops (notebook 2)

Embeds the two sampling loops of `2. Enabling Real-Time Feedback.ipynb`.
`random.randint(a, b)` returns a uniform integer in the inclusive range
`[a, b]`; the draws are passed in as an explicit function so every theorem
quantifies over them. -/

/-- The `sample_user` loop:

```python
n_users = 0
sample_user = None
for user in ...:
    n_users += 1
    if random.randint(1, n_users) <= 1:
        sample_user = user
```

`draws m` models the `random.randint(1, m)` call made when `n_users = m`.
Returns the final `(n_users, sample_user)`. -/
def sample_user_loop (draws : Nat → Nat) : List α → Nat → Option α → Nat × Option α
  | [], n, sample => (n, sample)
  | user :: rest, n, sample =>
    let n1 := n + 1
    sample_user_loop draws rest n1 (if draws n1 ≤ 1 then some user else sample)

/-- The `interaction_items` loop:

```python
n_items = 0
interaction_items = []
for item in ...:
    n_items += 1
    if n_items <= n_interactions:
        interaction_items.append(get_item_id(item))
    else:
        i = random.randint(n_interactions, n_items)
        if i <= n_interactions:
            interaction_items[i - 1] = get_item_id(item)
```

`k` is `n_interactions`; `draws m` models the `random.randint(k, m)` call
made when `n_items = m`; items are represented by their IDs.  Returns the
final reservoir, with `n` the running `n_items` and `res` the running
reservoir. -/
def interaction_items_loop (k : Nat) (draws : Nat → Nat) :
    List α → Nat → List α → List α
  | [], _, res => res
  | item :: rest, n, res =>
    let n1 := n + 1
    let res1 :=
      if n1 ≤ k then res ++ [item]
      else if draws n1 ≤ k then res.set (draws n1 - 1) item else res
    interaction_items_loop k draws rest n1 res1

/-! ## Event-tracker setup (notebook 2)

Embeds the `create_event_tracker` try/except cell.  The Personalize API is
abstracted: the outcome of the `create_event_tracker` call is an input, and
`describe_event_tracker` is an input function from a tracker ARN to its
`trackingId`. -/

/-- A botocore `ClientError`, reduced to the fields the cell reads:
`err.response["Error"]["Code"]` and `err.response["Error"]["Message"]`. -/
structure ClientError where
  code : String
  message : String
deriving DecidableEq

/-- Does `pat` begin the character list `s`? -/
def beginsWith : List Char → List Char → Bool
  | [], _ => true
  | _ :: _, [] => false
  | a :: as, b :: bs => a == b && beginsWith as bs

/-- Drop characters until the remaining list starts with `pat`
(Python `s[s.index(pat):]`, `none` when `pat` never occurs). -/
def dropUntilSub (pat : List Char) : List Char → Option (List Char)
  | [] => if pat.isEmpty then some [] else none
  | c :: rest =>
    if beginsWith pat (c :: rest) then some (c :: rest)
    else dropUntilSub pat rest

/-- Scrape a tracker ARN out of a `ResourceAlreadyExistsException` message:

```python
event_tracker_arn = msg[msg.index("arn:aws:personalize"):].partition(" ")[0]
```

i.e. from the first occurrence of `"arn:aws:personalize"` up to (not
including) the next space; `none` when the marker is absent (where Python
`str.index` would raise `ValueError`). -/
def scrapeTrackerArn (msg : String) : Option String :=
  match dropUntilSub ("arn:aws:personalize".toList) msg.toList with
  | some cs => some (String.mk (cs.takeWhile (fun c => c != ' ')))
  | none => none

/-- Outcome of the event-tracker setup cell: `tracking_id` bound to a
value, a `ClientError` re-raised to the caller, or the `ValueError` Python
would raise when the already-exists message holds no ARN. -/
inductive TrackerSetupResult where
  | ok (trackingId : String) : TrackerSetupResult
  | clientError (err : ClientError) : TrackerSetupResult
  | valueError : TrackerSetupResult
deriving DecidableEq

/-- The event-tracker setup cell: on success use the created tracker's
`trackingId`; on a `ClientError` with code `ResourceAlreadyExistsException`
scrape the existing tracker's ARN from the error message, describe it and
use its `trackingId`; re-raise any other `ClientError` unchanged. -/
def setup_event_tracker (createResult : Except ClientError (String × String))
    (describeTrackingId : String → String) : TrackerSetupResult :=
  match createResult with
  | Except.ok (_arn, tid) => TrackerSetupResult.ok tid
  | Except.error err =>
    if err.code = "ResourceAlreadyExistsException" then
      match scrapeTrackerArn err.message with
      | some arn => TrackerSetupResult.ok (describeTrackingId arn)
      | none => TrackerSetupResult.valueError
    else TrackerSetupResult.clientError err

/-! ## Helper lemmas about the Unused-Item Filter -/

/-- Unfolding equation of the filter on a decoded line whose record
carries the Identifier `rid`. -/
theorem filter_cons_some (field : String) (reviewed : Finset String) (p : ℚ)
    (draws : Nat → ℚ) (r : Record) (rest : List StreamLine) (n : Nat)
    (rid : String) (hid : getId field r = some rid) :
    remove_unused_items field reviewed p draws (some r :: rest) n
      = (if (decide (rid ∈ reviewed) || decide (draws n < p)) = true
          then r :: (remove_unused_items field reviewed p draws rest (n + 1)).1
          else (remove_unused_items field reviewed p draws rest (n + 1)).1,
        (remove_unused_items field reviewed p draws rest (n + 1)).2) := by
  simp only [remove_unused_items, hid]

/-- Whatever the parameters and the error outcome, the records the filter
writes form a sublist of the decoded input records. -/
theorem filter_output_sublist (field : String) (reviewed : Finset String) (p : ℚ)
    (draws : Nat → ℚ) : ∀ (lines : List StreamLine) (n : Nat),
    (remove_unused_items field reviewed p draws lines n).1.Sublist
      (lines.filterMap (fun o => o))
  | [], n => by simp [remove_unused_items]
  | none :: rest, n => by simp [remove_unused_items]
  | some r :: rest, n => by
    have ih := filter_output_sublist field reviewed p draws rest (n + 1)
    cases hid : getId field r with
    | none =>
      simp only [remove_unused_items, hid, List.filterMap_cons_some]
      exact List.nil_sublist _
    | some rid =>
      simp only [remove_unused_items, hid, List.filterMap_cons_some]
      by_cases hkeep : (decide (rid ∈ reviewed) || decide (draws n < p)) = true
      · simp only [hkeep, if_true]
        exact ih.cons₂ r
      · simp only [hkeep, if_false]
        exact ih.cons r

/-- At `p = 0`, with draws in the unit interval, the filter's result does
not depend on the draw sequence. -/
theorem filter_p_zero_draw_free (field : String) (reviewed : Finset String)
    (d1 d2 : Nat → ℚ) (h1 : ∀ m, 0 ≤ d1 m) (h2 : ∀ m, 0 ≤ d2 m) :
    ∀ (lines : List StreamLine) (n : Nat),
    remove_unused_items field reviewed 0 d1 lines n
      = remove_unused_items field reviewed 0 d2 lines n
  | [], n => rfl
  | none :: rest, n => rfl
  | some r :: rest, n => by
    have ih := filter_p_zero_draw_free field reviewed d1 d2 h1 h2 rest (n + 1)
    cases hid : getId field r with
    | none => simp only [remove_unused_items, hid]
    | some rid =>
      simp only [remove_unused_items, hid, ih,
        decide_eq_false (not_lt.mpr (h1 n)), decide_eq_false (not_lt.mpr (h2 n))]

/-- At `p = 0`, with draws in the unit interval, every record the filter
writes has an Identifier belonging to the Reviewed-ID Set. -/
theorem filter_p_zero_safe (field : String) (reviewed : Finset String)
    (draws : Nat → ℚ) (hd : ∀ m, 0 ≤ draws m) :
    ∀ (lines : List StreamLine) (n : Nat),
    ∀ r ∈ (remove_unused_items field reviewed 0 draws lines n).1,
      ∃ rid ∈ reviewed, getId field r = some rid
  | [], n => by simp [remove_unused_items]
  | none :: rest, n => by simp [remove_unused_items]
  | some r :: rest, n => by
    have ih := filter_p_zero_safe field reviewed draws hd rest (n + 1)
    cases hid : getId field r with
    | none => simp [remove_unused_items, hid]
    | some rid =>
      simp only [remove_unused_items, hid, decide_eq_false (not_lt.mpr (hd n)),
        Bool.or_false]
      intro r2 hr2
      by_cases hmem : rid ∈ reviewed
      · rw [decide_eq_true hmem, if_pos rfl] at hr2
        rcases List.mem_cons.mp hr2 with h | h
        · exact ⟨rid, hmem, h ▸ hid⟩
        · exact ih r2 h
      · rw [decide_eq_false hmem] at hr2
        simp only [if_neg Bool.false_ne_true] at hr2
        exact ih r2 hr2

/-- Every record the filter writes sits at some input position, and was
kept either by Reviewed-ID Set membership or by its own draw (the one at
its stream position) beating `p`. -/
theorem filter_mem_reason (field : String) (reviewed : Finset String) (p : ℚ)
    (draws : Nat → ℚ) :
    ∀ (lines : List StreamLine) (n : Nat),
    ∀ r ∈ (remove_unused_items field reviewed p draws lines n).1,
      ∃ i rid, lines[i]? = some (some r) ∧ getId field r = some rid ∧
        (rid ∈ reviewed ∨ draws (n + i) < p)
  | [], n => by simp [remove_unused_items]
  | none :: rest, n => by simp [remove_unused_items]
  | some r :: rest, n => by
    have ih := filter_mem_reason field reviewed p draws rest (n + 1)
    cases hid : getId field r with
    | none => simp [remove_unused_items, hid]
    | some rid =>
      simp only [remove_unused_items, hid]
      intro r2 hr2
      have step : ∀ r3, r3 ∈ (remove_unused_items field reviewed p draws rest (n + 1)).1 →
          ∃ i rid2, (some r :: rest)[i]? = some (some r3) ∧
            getId field r3 = some rid2 ∧ (rid2 ∈ reviewed ∨ draws (n + i) < p) := by
        intro r3 hr3
        obtain ⟨i, rid2, hget, hgid, hwhy⟩ := ih r3 hr3
        refine ⟨i + 1, rid2, ?_, hgid, ?_⟩
        · simpa using hget
        · have : n + 1 + i = n + (i + 1) := by omega
          rwa [this] at hwhy
      by_cases hkeep : (decide (rid ∈ reviewed) || decide (draws n < p)) = true
      · rw [if_pos hkeep] at hr2
        rcases List.mem_cons.mp hr2 with h | h
        · subst h
          refine ⟨0, rid, by simp, hid, ?_⟩
          rcases Bool.or_eq_true_iff.mp hkeep with h | h
          · exact Or.inl (of_decide_eq_true h)
          · exact Or.inr (by simpa using of_decide_eq_true h)
        · exact step r2 h
      · rw [if_neg hkeep] at hr2
        exact step r2 hr2

/-! ## Concrete records for witnesses and examples -/

/-- Example record with Identifier `"A"`. -/
def rec1 : Record := [("asin", JsonValue.str "A")]

/-- Example record with Identifier `"B"`. -/
def rec2 : Record := [("asin", JsonValue.str "B")]

/-- Example record with Identifier `"C"`. -/
def rec3 : Record := [("asin", JsonValue.str "C")]

/-- A second, structurally different record with Identifier `"B"`. -/
def rec4 : Record := [("asin", JsonValue.str "B"), ("title", JsonValue.str "again")]

/-- Example record with Identifier `"D"`. -/
def rec5 : Record := [("asin", JsonValue.str "D")]

/-! ## Claims about the Unused-Item Filter -/

/-- C1: with the cold-start probability at its default `p = 0` (and the
per-record draws in the unit interval `[0, 1)`), the Unused-Item Filter's
output contains no record whose Identifier is absent from the Reviewed-ID
Set: every written record's Identifier is a member of the set. -/
theorem C1_p_zero_no_unreviewed (field : String) (reviewed : Finset String)
    (draws : Nat → ℚ) (lines : List StreamLine)
    (hd : ∀ m, 0 ≤ draws m) :
    ∀ r ∈ (remove_unused_items field reviewed 0 draws lines 0).1,
      ∃ rid ∈ reviewed, getId field r = some rid :=
  filter_p_zero_safe field reviewed draws hd lines 0

/-- Witness for C1 at a concrete input: filtering `[rec2, rec1]` against
the set `{"B"}` at `p = 0` keeps `rec2`, whose Identifier is in the set. -/
theorem C1_witness :
    ∃ rid ∈ ({"B"} : Finset String), getId "asin" rec2 = some rid :=
  C1_p_zero_no_unreviewed "asin" {"B"} (fun _ => 0) [some rec2, some rec1]
    (fun _ => le_refl 0) rec2 (List.mem_cons_self rec2 [])

/-- C2: every record the Unused-Item Filter writes sits at some position
of the input stream and either has an Identifier belonging to the supplied
Reviewed-ID Set or was admitted by its own per-record cold-start Bernoulli
draw (the draw at its stream position beating `p`); no other record is
written. -/
theorem C2_completeness (field : String) (reviewed : Finset String) (p : ℚ)
    (draws : Nat → ℚ) (lines : List StreamLine) :
    ∀ r ∈ (remove_unused_items field reviewed p draws lines 0).1,
      ∃ i rid, lines[i]? = some (some r) ∧ getId field r = some rid ∧
        (rid ∈ reviewed ∨ draws i < p) := by
  intro r hr
  obtain ⟨i, rid, hget, hgid, hwhy⟩ :=
    filter_mem_reason field reviewed p draws lines 0 r hr
  exact ⟨i, rid, hget, hgid, by simpa using hwhy⟩

/-- Witness for C2 at a concrete input: with the empty Reviewed-ID Set and
`p = 1`, the kept record `rec1` is at position 0 of the stream and was
admitted by its own draw `0 < 1`. -/
theorem C2_witness :
    ∃ (i : Nat) (rid : String), ([some rec1] : List StreamLine)[i]? = some (some rec1) ∧
      getId "asin" rec1 = some rid ∧
      (rid ∈ (∅ : Finset String) ∨ (fun _ => (0 : ℚ)) i < 1) :=
  C2_completeness "asin" ∅ 1 (fun _ => 0) [some rec1] rec1
    (List.mem_cons_self rec1 [])

/-- C3: the Unused-Item Filter's output is a sublist of the decoded input
records — kept records appear in their input relative order, with no extra
records; in particular, an input pool of 5 records with Identifiers
`[A, B, C, B, D]`, Reviewed-ID Set `{B, D}` and `p = 0` yields exactly the
three matching records in order (Identifiers `[B, B, D]`). -/
theorem C3_order_preservation :
    (∀ (field : String) (reviewed : Finset String) (p : ℚ) (draws : Nat → ℚ)
      (lines : List StreamLine) (n : Nat),
      (remove_unused_items field reviewed p draws lines n).1.Sublist
        (lines.filterMap (fun o => o)))
    ∧ (remove_unused_items "asin" {"B", "D"} 0 (fun _ => 0)
        [some rec1, some rec2, some rec3, some rec4, some rec5] 0).1
      = [rec2, rec4, rec5]
    ∧ [rec2, rec4, rec5].map (getId "asin")
      = [some "B", some "B", some "D"] :=
  ⟨fun field reviewed p draws lines n =>
    filter_output_sublist field reviewed p draws lines n, rfl, rfl⟩

/-! ## Claims about the Reviewed-ID Extractor -/

/-- Folding the extractor loop from any accumulator adds exactly the
stream's Identifiers to the set and the stream's length to the count,
provided every record carries the Identifier field. -/
theorem extractor_fold_spec (field : String) :
    ∀ (reviews : List Record) (acc : Finset String × Nat),
    (∀ r ∈ reviews, (getId field r).isSome) →
    reviews.foldlM (extractorStep field) acc
      = some (acc.1 ∪ (reviews.filterMap (getId field)).toFinset,
          acc.2 + reviews.length)
  | [], acc => by simp [List.foldlM]
  | r :: rest, acc => by
    intro h
    obtain ⟨rid, hid⟩ := Option.isSome_iff_exists.mp (h r (List.mem_cons_self r rest))
    have ih := extractor_fold_spec field rest (insert rid acc.1, acc.2 + 1)
      (fun r2 hr2 => h r2 (List.mem_cons_of_mem r hr2))
    have hstep : extractorStep field acc r = some (insert rid acc.1, acc.2 + 1) := by
      unfold extractorStep
      rw [hid]
    have hfm : List.filterMap (getId field) (r :: rest)
        = rid :: List.filterMap (getId field) rest := by
      rw [List.filterMap_cons, hid]
    rw [List.foldlM_cons, hstep]
    show List.foldlM (extractorStep field) (insert rid acc.1, acc.2 + 1) rest = _
    rw [ih, hfm]
    refine congrArg some (Prod.ext ?_ ?_)
    · show insert rid acc.1 ∪ (List.filterMap (getId field) rest).toFinset
        = acc.1 ∪ (rid :: List.filterMap (getId field) rest).toFinset
      rw [List.toFinset_cons, Finset.insert_union, Finset.union_insert]
    · show acc.2 + 1 + rest.length = acc.2 + (r :: rest).length
      rw [List.length_cons]
      omega

/-- C5: on a stream of well-formed records (each carrying the configured
Identifier field), the Reviewed-ID Extractor returns exactly the set of
Identifier values occurring in the stream, paired with a count equal to the
number of records processed (the stream's length, which need not equal the
set's size); the empty stream yields the empty set and count 0. -/
theorem C5_extractor_exact (field : String) (reviews : List Record)
    (h : ∀ r ∈ reviews, (getId field r).isSome) :
    reviewed_item_ids field reviews
      = some ((reviews.filterMap (getId field)).toFinset, reviews.length)
    ∧ reviewed_item_ids field [] = some (∅, 0) := by
  constructor
  · rw [reviewed_item_ids, extractor_fold_spec field reviews (∅, 0) h]
    simp
  · rfl

/-- Witness for C5 at a concrete input: three records with Identifiers
`A, B, A` yield the two-element set `{A, B}` and count 3. -/
theorem C5_witness :
    reviewed_item_ids "asin" [rec1, rec2, rec1]
      = some (([rec1, rec2, rec1].filterMap (getId "asin")).toFinset, 3)
    ∧ reviewed_item_ids "asin" [] = some (∅, 0) :=
  C5_extractor_exact "asin" [rec1, rec2, rec1] (by decide)

/-- C6: at `p = 0` the Unused-Item Filter is deterministic — two runs on
identical input and identical Reviewed-ID Set (under any two draw
sequences in the unit interval) return the same kept records and error,
and serialize to byte-identical output text (the content underneath the
compression framing); and the Reviewed-ID Extractor returns the same set
and count on every run over the same input. -/
theorem C6_determinism_p_zero (field : String) (reviewed : Finset String)
    (lines : List StreamLine) (d1 d2 : Nat → ℚ)
    (h1 : ∀ m, 0 ≤ d1 m) (h2 : ∀ m, 0 ≤ d2 m) :
    remove_unused_items field reviewed 0 d1 lines 0
      = remove_unused_items field reviewed 0 d2 lines 0
    ∧ serializeOutput (remove_unused_items field reviewed 0 d1 lines 0).1
      = serializeOutput (remove_unused_items field reviewed 0 d2 lines 0).1
    ∧ ∀ (field2 : String) (reviews : List Record),
        reviewed_item_ids field2 reviews = reviewed_item_ids field2 reviews := by
  have h := filter_p_zero_draw_free field reviewed d1 d2 h1 h2 lines 0
  exact ⟨h, by rw [h], fun _ _ => rfl⟩

/-- Witness for C6 at a concrete input: two runs over the five-record pool
with different draw sequences (constant 0 and constant 1/2) agree. -/
theorem C6_witness :
    remove_unused_items "asin" {"B", "D"} 0 (fun _ => 0)
        [some rec1, some rec2, some rec3, some rec4, some rec5] 0
      = remove_unused_items "asin" {"B", "D"} 0 (fun _ => 1/2)
        [some rec1, some rec2, some rec3, some rec4, some rec5] 0
    ∧ serializeOutput (remove_unused_items "asin" {"B", "D"} 0 (fun _ => 0)
        [some rec1, some rec2, some rec3, some rec4, some rec5] 0).1
      = serializeOutput (remove_unused_items "asin" {"B", "D"} 0 (fun _ => 1/2)
        [some rec1, some rec2, some rec3, some rec4, some rec5] 0).1
    ∧ ∀ (field2 : String) (reviews : List Record),
        reviewed_item_ids field2 reviews = reviewed_item_ids field2 reviews :=
  C6_determinism_p_zero "asin" {"B", "D"}
    [some rec1, some rec2, some rec3, some rec4, some rec5]
    (fun _ => 0) (fun _ => 1/2) (fun _ => le_refl 0) (fun _ => by norm_num)

/-- The filter on a well-formed prefix followed by a malformed line:
the pass ends with `MalformedRecord` at the malformed line's 1-based
index, and the written records are exactly the kept decisions for the
prefix. -/
theorem filter_malformed_split (field : String) (reviewed : Finset String)
    (p : ℚ) (draws : Nat → ℚ) :
    ∀ (good : List Record) (rest : List StreamLine) (n : Nat),
    (∀ r ∈ good, (getId field r).isSome) →
    remove_unused_items field reviewed p draws (good.map some ++ none :: rest) n
      = ((remove_unused_items field reviewed p draws (good.map some) n).1,
          some (FilterError.MalformedRecord (n + good.length + 1)))
  | [], rest, n => by
    intro _
    simp [remove_unused_items]
  | r :: good, rest, n => by
    intro h
    obtain ⟨rid, hid⟩ := Option.isSome_iff_exists.mp (h r (List.mem_cons_self r good))
    have ih := filter_malformed_split field reviewed p draws good rest (n + 1)
      (fun r2 hr2 => h r2 (List.mem_cons_of_mem r hr2))
    rw [List.map_cons, List.cons_append,
      filter_cons_some field reviewed p draws r _ n rid hid,
      filter_cons_some field reviewed p draws r _ n rid hid, ih]
    refine Prod.ext rfl ?_
    show some (FilterError.MalformedRecord (n + 1 + good.length + 1))
      = some (FilterError.MalformedRecord (n + (r :: good).length + 1))
    rw [List.length_cons]
    exact congrArg (fun m => some (FilterError.MalformedRecord m)) (by omega)

/-- C7: when a line of the stream fails to decode as JSON (here: the first
malformed line, sitting after a prefix of well-formed records), the pass
surfaces the fatal `MalformedRecord` error carrying that line's 1-based
record index, aborts mid-stream without silently skipping, and the output
holds exactly the kept-record decisions for the records preceding the
malformed line. -/
theorem C7_malformed_aborts (field : String) (reviewed : Finset String)
    (p : ℚ) (draws : Nat → ℚ) (good : List Record) (rest : List StreamLine)
    (h : ∀ r ∈ good, (getId field r).isSome) :
    (remove_unused_items field reviewed p draws
        (good.map some ++ none :: rest) 0).2
      = some (FilterError.MalformedRecord (good.length + 1))
    ∧ (remove_unused_items field reviewed p draws
        (good.map some ++ none :: rest) 0).1
      = (remove_unused_items field reviewed p draws (good.map some) 0).1 := by
  rw [filter_malformed_split field reviewed p draws good rest 0 h]
  exact ⟨by simp, rfl⟩

/-- Witness for C7 at the spec's example: five lines with line 3
malformed raise `MalformedRecord 3`, and the output equals the decisions
for lines 1-2 alone. -/
theorem C7_witness :
    (remove_unused_items "asin" {"B", "D"} 0 (fun _ => 0)
        ([rec1, rec2].map some ++ none :: [some rec4, some rec5]) 0).2
      = some (FilterError.MalformedRecord 3)
    ∧ (remove_unused_items "asin" {"B", "D"} 0 (fun _ => 0)
        ([rec1, rec2].map some ++ none :: [some rec4, some rec5]) 0).1
      = (remove_unused_items "asin" {"B", "D"} 0 (fun _ => 0)
          ([rec1, rec2].map some) 0).1 :=
  C7_malformed_aborts "asin" {"B", "D"} 0 (fun _ => 0) [rec1, rec2]
    [some rec4, some rec5] (by decide)

/-- C8: the filter writes each kept record with its full original
structure unchanged — every written record is (equal to) a decoded input
record, and the output text is exactly the newline-delimited JSON
re-encoding of those untouched records (only framing, not field values,
differs between input and output). -/
theorem C8_structure_preserved (field : String) (reviewed : Finset String)
    (p : ℚ) (draws : Nat → ℚ) (lines : List StreamLine) (n : Nat) :
    (∀ r ∈ (remove_unused_items field reviewed p draws lines n).1,
      r ∈ lines.filterMap (fun o => o))
    ∧ serializeOutput (remove_unused_items field reviewed p draws lines n).1
      = String.join ((remove_unused_items field reviewed p draws lines n).1.map
          (fun r => encodeJson (JsonValue.obj r) ++ "\n")) :=
  ⟨fun _r hr => (filter_output_sublist field reviewed p draws lines n).subset hr,
    rfl⟩

/-- Witness for C8 at a concrete input: the kept record `rec2` is among
the decoded input records, and the one-record output serializes to its
JSON line. -/
theorem C8_witness :
    rec2 ∈ ([some rec2, some rec1] : List StreamLine).filterMap (fun o => o)
    ∧ serializeOutput (remove_unused_items "asin" {"B"} 0 (fun _ => 0)
        [some rec2, some rec1] 0).1
      = String.join ((remove_unused_items "asin" {"B"} 0 (fun _ => 0)
          [some rec2, some rec1] 0).1.map
            (fun r => encodeJson (JsonValue.obj r) ++ "\n")) :=
  ⟨(C8_structure_preserved "asin" {"B"} 0 (fun _ => 0) [some rec2, some rec1] 0).1
      rec2 (List.mem_cons_self rec2 []),
    (C8_structure_preserved "asin" {"B"} 0 (fun _ => 0) [some rec2, some rec1] 0).2⟩

/-! ## Claims about the reservoir-sampling loops -/

/-- Writing at an index at or beyond `m` leaves the first `m` elements of
a list unchanged. -/
theorem take_set_of_le (a : α) : ∀ (l : List α) (i m : Nat), m ≤ i →
    (l.set i a).take m = l.take m
  | [], i, m, _ => rfl
  | b :: l, i, 0, _ => by simp
  | b :: l, 0, m + 1, h => by omega
  | b :: l, i + 1, m + 1, h => by
    simp only [List.set_cons_succ, List.take_succ_cons]
    rw [take_set_of_le a l i m (by omega)]

/-- Once `n_items` has reached the reservoir size `k`, later iterations of
the `interaction_items` loop never change the first `k - 1` reservoir
slots: the drawn index `i = randint(k, n_items)` is at least `k`, so the
only slot it can select is `i - 1 = k - 1`. -/
theorem interaction_loop_post_fill (k : Nat) (draws : Nat → Nat)
    (hd : ∀ m, k ≤ draws m) :
    ∀ (items : List α) (n : Nat) (res : List α), k ≤ n →
    (interaction_items_loop k draws items n res).take (k - 1)
      = res.take (k - 1)
  | [], n, res, _ => rfl
  | item :: rest, n, res, hn => by
    have ih := interaction_loop_post_fill k draws hd rest (n + 1)
    simp only [interaction_items_loop, if_neg (by omega : ¬ n + 1 ≤ k)]
    by_cases hdraw : draws (n + 1) ≤ k
    · rw [if_pos hdraw, ih _ (by omega),
        take_set_of_le item res (draws (n + 1) - 1) (k - 1)
          (by have := hd (n + 1); omega)]
    · rw [if_neg hdraw, ih _ (by omega)]

/-- During the fill phase (`n_items ≤ k`, with `n_items` equal to the
current reservoir length), the loop's final reservoir agrees with the
plain concatenation `res ++ items` on the first `k - 1` positions. -/
theorem interaction_loop_fill (k : Nat) (draws : Nat → Nat)
    (hd : ∀ m, k ≤ draws m) :
    ∀ (items : List α) (n : Nat) (res : List α), res.length = n → n ≤ k →
    (interaction_items_loop k draws items n res).take (k - 1)
      = (res ++ items).take (k - 1)
  | [], n, res, _, _ => by simp [interaction_items_loop]
  | item :: rest, n, res, hlen, hn => by
    by_cases hfill : n + 1 ≤ k
    · simp only [interaction_items_loop, if_pos hfill]
      rw [interaction_loop_fill k draws hd rest (n + 1) (res ++ [item])
          (by simp [hlen]) hfill]
      simp
    · simp only [interaction_items_loop, if_neg hfill]
      have htail : (res ++ item :: rest).take (k - 1) = res.take (k - 1) := by
        rw [List.take_append_eq_append_take]
        have h0 : k - 1 - res.length = 0 := by omega
        rw [h0, List.take_zero, List.append_nil]
      by_cases hdraw : draws (n + 1) ≤ k
      · rw [if_pos hdraw,
          interaction_loop_post_fill k draws hd rest (n + 1) _ (by omega),
          take_set_of_le item res (draws (n + 1) - 1) (k - 1)
            (by have := hd (n + 1); omega), htail]
      · rw [if_neg hdraw,
          interaction_loop_post_fill k draws hd rest (n + 1) _ (by omega), htail]

/-- C9: in the `interaction_items` loop with reservoir size
`k = n_interactions`, for every input of at least `k` items and every
sequence of draws respecting `randint(k, n_items)`'s lower bound, the
first `k - 1` selected items are exactly the first `k - 1` input items:
after the fill phase only the last slot can ever be overwritten. -/
theorem C9_reservoir_head_frozen (k : Nat) (draws : Nat → Nat)
    (items : List α) (_hk : 1 ≤ k) (_hlen : k ≤ items.length)
    (hd : ∀ m, k ≤ draws m) :
    (interaction_items_loop k draws items 0 []).take (k - 1)
      = items.take (k - 1) := by
  rw [interaction_loop_fill k draws hd items 0 [] rfl (by omega)]
  rfl

/-- Witness for C9 at a concrete input: `k = 2` over four items, with the
draw constantly 2, keeps the first item in slot 0. -/
theorem C9_witness :
    (interaction_items_loop 2 (fun _ => 2) [5, 6, 7, 8] 0 []).take 1
      = [5, 6, 7, 8].take 1 :=
  C9_reservoir_head_frozen 2 (fun _ => 2) [5, 6, 7, 8] (by omega)
    (by simp) (fun _ => le_refl 2)

/-- C4 (quantitative claim refuted on the item loop): with
`k = n_interactions = 2` and the three-item input `[10, 20, 30]`, the one
post-fill draw `i = randint(2, 3)` takes only the values 2 and 3, and in
both cases the first input item survives in slot 0 — it is selected with
probability 1, not `k/n = 2/3`, so the loop is not Algorithm R and does
not maintain a uniformly-random `k`-subset. -/
theorem C4_item_loop_not_uniform :
    interaction_items_loop 2 (fun _ => 2) [10, 20, 30] 0 [] = [10, 30]
    ∧ interaction_items_loop 2 (fun _ => 3) [10, 20, 30] 0 [] = [10, 20]
    ∧ (interaction_items_loop 2 (fun _ => 2) [10, 20, 30] 0 []).take 1 = [10]
    ∧ (interaction_items_loop 2 (fun _ => 3) [10, 20, 30] 0 []).take 1 = [10] := by
  refine ⟨rfl, rfl, rfl, rfl⟩

/-- The `sample_user` loop, in contrast, is Algorithm R with `k = 1`:
enumerating the six valid draw sequences for a three-user stream (the
draw at `n_users = m` ranging over `[1, m]`, with the first draw
necessarily 1), each of the three users is the final `sample_user` in
exactly two of them — probability 1/3 each. -/
theorem sample_user_loop_uniform_three :
    (([(1, 1), (1, 2), (1, 3), (2, 1), (2, 2), (2, 3)] : List (Nat × Nat)).countP
        (fun d => (sample_user_loop
          (fun m => if m = 1 then 1 else if m = 2 then d.1 else d.2)
          [1, 2, 3] 0 none).2 == some 1)) = 2
    ∧ (([(1, 1), (1, 2), (1, 3), (2, 1), (2, 2), (2, 3)] : List (Nat × Nat)).countP
        (fun d => (sample_user_loop
          (fun m => if m = 1 then 1 else if m = 2 then d.1 else d.2)
          [1, 2, 3] 0 none).2 == some 2)) = 2
    ∧ (([(1, 1), (1, 2), (1, 3), (2, 1), (2, 2), (2, 3)] : List (Nat × Nat)).countP
        (fun d => (sample_user_loop
          (fun m => if m = 1 then 1 else if m = 2 then d.1 else d.2)
          [1, 2, 3] 0 none).2 == some 3)) = 2 := by
  refine ⟨rfl, rfl, rfl⟩

/-! ## Claim about the event-tracker setup -/

/-- C10: the event-tracker setup binds `tracking_id` in both paths — on a
successful create it uses the new tracker's `trackingId`; on a
`ClientError` whose code is `ResourceAlreadyExistsException` it scrapes
the existing tracker's ARN from the error message, describes it and uses
that tracker's `trackingId`; and it re-raises a `ClientError` with any
other code unchanged. -/
theorem C10_tracker_setup (err : ClientError)
    (describeTrackingId : String → String) (created : String × String) :
    setup_event_tracker (Except.ok created) describeTrackingId
      = TrackerSetupResult.ok created.2
    ∧ (err.code = "ResourceAlreadyExistsException" →
        ∀ arn, scrapeTrackerArn err.message = some arn →
        setup_event_tracker (Except.error err) describeTrackingId
          = TrackerSetupResult.ok (describeTrackingId arn))
    ∧ (err.code ≠ "ResourceAlreadyExistsException" →
        setup_event_tracker (Except.error err) describeTrackingId
          = TrackerSetupResult.clientError err) := by
  refine ⟨rfl, ?_, ?_⟩
  · intro hcode arn harn
    simp [setup_event_tracker, hcode, harn]
  · intro hcode
    simp [setup_event_tracker, hcode]

/-- Witness for C10 at concrete inputs: an already-exists error whose
message embeds a tracker ARN resolves to the described tracker's
`trackingId`, and a throttling error is re-raised unchanged. -/
theorem C10_witness :
    setup_event_tracker
        (Except.error ⟨"ResourceAlreadyExistsException",
          "Another resource is using arn:aws:personalize:us-east-1:123:event-tracker/abc already"⟩)
        (fun _ => "tid-1")
      = TrackerSetupResult.ok "tid-1"
    ∧ setup_event_tracker (Except.error ⟨"ThrottlingException", "slow down"⟩)
        (fun _ => "tid-1")
      = TrackerSetupResult.clientError ⟨"ThrottlingException", "slow down"⟩ := by
  constructor
  · exact (C10_tracker_setup
      ⟨"ResourceAlreadyExistsException",
        "Another resource is using arn:aws:personalize:us-east-1:123:event-tracker/abc already"⟩
      (fun _ => "tid-1") ("a", "t")).2.1 rfl
      "arn:aws:personalize:us-east-1:123:event-tracker/abc" (by decide)
  · exact (C10_tracker_setup ⟨"ThrottlingException", "slow down"⟩
      (fun _ => "tid-1") ("a", "t")).2.2 (by decide)

end PersonalizeDemo
